import Mathlib

/-!
Verification of the secure self-update subsystem of the `pal` CLI.

The definitions below are shallow embeddings of the TypeScript sources:
  - `src/core/update-manager.ts`  (version comparator, update orchestrator)
  - `src/core/install-tracker.ts` (install record store)
  - `src/core/arweave-client.ts`  (hash verification; SHA-256 comes from
    node:crypto and is embedded here as the standard FIPS 180-4 algorithm)
  - `src/cli/commands/update.ts`  (force-reinstall entry point)

Conventions used throughout:
  - JS strings are Lean `String`s; byte buffers are `List Nat` with each
    element `< 256`.
  - JS `number` values that hold small non-negative integers (version
    components) are modelled as `Nat`; differences are taken in `Int`.
    (JS `parseInt` loses precision above 2^53; no claim below depends on
    components that large.)
  - The user's home directory is rendered as "~", so `~/.pal` stands for
    the result of `path.join(homedir(), ".pal")`.
-/

namespace Pal

/-! ## Version comparator (`src/core/update-manager.ts`, `parseSemver`,
`compareVersions`, `isNewerVersion`) -/

/-- Longest leading run of ASCII digits of a character list, together with
the remainder.  This is the semantics of a leading greedy regex group
`(\d+)`. -/
def takeDigits : List Char → List Char × List Char
  | [] => ([], [])
  | c :: cs =>
    if c.isDigit then
      let p := takeDigits cs
      (c :: p.1, p.2)
    else ([], c :: cs)

/-- Numeric value of a digit string, as computed by `parseInt(s, 10)`. -/
def digitsVal (ds : List Char) : Nat :=
  ds.foldl (fun n c => n * 10 + (c.toNat - 48)) 0

/-- Embedding of `parseSemver` applied to the character list of the input:
the regex `/^(\d+)\.(\d+)\.(\d+)/` is matched against the start of the
string (trailing characters are ignored) and the three captured digit
groups are converted with `parseInt`. -/
def parseSemverChars (cs : List Char) : Option (Nat × Nat × Nat) :=
  match takeDigits cs with
  | ([], _) => none
  | (d1, '.' :: r2) =>
    match takeDigits r2 with
    | ([], _) => none
    | (d2, '.' :: r4) =>
      match takeDigits r4 with
      | ([], _) => none
      | (d3, _) => some (digitsVal d1, digitsVal d2, digitsVal d3)
    | _ => none
  | _ => none

/-- `parseSemver(version)` from `update-manager.ts`: `[major, minor, patch]`
or `null` when the version has no leading `\d+.\d+.\d+` prefix. -/
def parseSemver (s : String) : Option (Nat × Nat × Nat) :=
  parseSemverChars s.data

/-- `compareVersions(a, b)`: `0` when either side fails to parse, otherwise
the first nonzero component difference (major, then minor, then patch). -/
def compareVersions (a b : String) : Int :=
  match parseSemver a, parseSemver b with
  | some (a1, a2, a3), some (b1, b2, b3) =>
    if (a1 : Int) - b1 ≠ 0 then (a1 : Int) - b1
    else if (a2 : Int) - b2 ≠ 0 then (a2 : Int) - b2
    else if (a3 : Int) - b3 ≠ 0 then (a3 : Int) - b3
    else 0
  | _, _ => 0

/-- `isNewerVersion(a, b)`: true when `compareVersions(a, b) > 0`. -/
def isNewerVersion (a b : String) : Bool :=
  decide (compareVersions a b > 0)

/-- A string that matches `^\d+\.\d+\.\d+$` exactly (the "strict
`major.minor.patch`" shape from the spec; the ledger client only lets such
strings through). -/
def isStrictSemver (s : String) : Bool :=
  match takeDigits s.data with
  | ([], _) => false
  | (_, '.' :: r2) =>
    match takeDigits r2 with
    | ([], _) => false
    | (_, '.' :: r4) =>
      match takeDigits r4 with
      | ([], _) => false
      | (_, rest) => rest.isEmpty
    | _ => false
  | _ => false

/-! ## SHA-256 and hash verification (`src/core/arweave-client.ts`,
`verifyHash`)

`verifyHash` calls `createHash("sha256").update(data).digest("hex")` from
node:crypto and compares the resulting (lowercase) hex digest with
`expectedHash.toLowerCase()`.  The digest algorithm is the standard
FIPS 180-4 SHA-256, embedded below over byte lists. -/

/-- Two to the power 32, the word modulus of SHA-256. -/
def M32 : Nat := 4294967296

/-- Rotate a word right by `n` bit positions within 32 bits. -/
def rotr32 (n x : Nat) : Nat := ((x >>> n) ||| ((x <<< (32 - n)) % M32)) % M32

/-- The SHA-256 choice function. -/
def ch32 (x y z : Nat) : Nat := (x &&& y) ^^^ ((x ^^^ (M32 - 1)) &&& z)

/-- The SHA-256 majority function. -/
def maj32 (x y z : Nat) : Nat := (x &&& y) ^^^ (x &&& z) ^^^ (y &&& z)

/-- Big sigma 0 of SHA-256. -/
def bsig0 (x : Nat) : Nat := rotr32 2 x ^^^ rotr32 13 x ^^^ rotr32 22 x

/-- Big sigma 1 of SHA-256. -/
def bsig1 (x : Nat) : Nat := rotr32 6 x ^^^ rotr32 11 x ^^^ rotr32 25 x

/-- Small sigma 0 of SHA-256. -/
def ssig0 (x : Nat) : Nat := rotr32 7 x ^^^ rotr32 18 x ^^^ (x >>> 3)

/-- Small sigma 1 of SHA-256. -/
def ssig1 (x : Nat) : Nat := rotr32 17 x ^^^ rotr32 19 x ^^^ (x >>> 10)

/-- The 64 SHA-256 round constants (FIPS 180-4 section 4.2.2, here in
decimal). -/
def sha256K : List Nat :=
  [1116352408, 1899447441, 3049323471, 3921009573,
   961987163, 1508970993, 2453635748, 2870763221,
   3624381080, 310598401, 607225278, 1426881987,
   1925078388, 2162078206, 2614888103, 3248222580,
   3835390401, 4022224774, 264347078, 604807628,
   770255983, 1249150122, 1555081692, 1996064986,
   2554220882, 2821834349, 2952996808, 3210313671,
   3336571891, 3584528711, 113926993, 338241895,
   666307205, 773529912, 1294757372, 1396182291,
   1695183700, 1986661051, 2177026350, 2456956037,
   2730485921, 2820302411, 3259730800, 3345764771,
   3516065817, 3600352804, 4094571909, 275423344,
   430227734, 506948616, 659060556, 883997877,
   958139571, 1322822218, 1537002063, 1747873779,
   1955562222, 2024104815, 2227730452, 2361852424,
   2428436474, 2756734187, 3204031479, 3329325298]

/-- The eight 32-bit working variables of SHA-256. -/
structure Sha256State where
  a : Nat
  b : Nat
  c : Nat
  d : Nat
  e : Nat
  f : Nat
  g : Nat
  h : Nat

/-- The eight SHA-256 initial hash words, in decimal. -/
def sha256Start : Sha256State :=
  ⟨1779033703, 3144134277, 1013904242, 2773480762,
   1359893119, 2600822924, 528734635, 1541459225⟩

/-- Message-schedule extension: prepend `n` further words to the reversed
schedule `acc` (whose head is the most recently produced word). -/
def extendSchedule : Nat → List Nat → List Nat
  | 0, acc => acc
  | n + 1, acc =>
    let w2 := acc.getD 1 0
    let w7 := acc.getD 6 0
    let w15 := acc.getD 14 0
    let w16 := acc.getD 15 0
    extendSchedule n (((ssig1 w2 + w7 + ssig0 w15 + w16) % M32) :: acc)

/-- Expand a 16-word block into the 64-word message schedule. -/
def messageSchedule (block : List Nat) : List Nat :=
  (extendSchedule 48 block.reverse).reverse

/-- One SHA-256 round with round constant `k` and schedule word `w`. -/
def sha256Round (s : Sha256State) (k w : Nat) : Sha256State :=
  let t1 := (s.h + bsig1 s.e + ch32 s.e s.f s.g + k + w) % M32
  let t2 := (bsig0 s.a + maj32 s.a s.b s.c) % M32
  ⟨(t1 + t2) % M32, s.a, s.b, s.c, (s.d + t1) % M32, s.e, s.f, s.g⟩

/-- Run the rounds for a list of (constant, schedule word) pairs. -/
def sha256Rounds : List (Nat × Nat) → Sha256State → Sha256State
  | [], s => s
  | kw :: rest, s => sha256Rounds rest (sha256Round s kw.1 kw.2)

/-- Compress one 16-word block into the running hash state. -/
def sha256Compress (hs : Sha256State) (block : List Nat) : Sha256State :=
  let s := sha256Rounds (sha256K.zip (messageSchedule block)) hs
  ⟨(hs.a + s.a) % M32, (hs.b + s.b) % M32, (hs.c + s.c) % M32,
   (hs.d + s.d) % M32, (hs.e + s.e) % M32, (hs.f + s.f) % M32,
   (hs.g + s.g) % M32, (hs.h + s.h) % M32⟩

/-- Fold the compression function over the word stream, 16 words at a
time.  The first argument is fuel (any value at least the word count). -/
def sha256Blocks : Nat → Sha256State → List Nat → Sha256State
  | 0, hs, _ => hs
  | _ + 1, hs, [] => hs
  | fuel + 1, hs, ws => sha256Blocks fuel (sha256Compress hs (ws.take 16)) (ws.drop 16)

/-- Big-endian byte serialization of `v` into `k` bytes. -/
def toBytesBE : Nat → Nat → List Nat
  | 0, _ => []
  | k + 1, v => toBytesBE k (v / 256) ++ [v % 256]

/-- SHA-256 padding: append `0x80`, zero bytes to 56 mod 64, and the
64-bit big-endian bit length. -/
def padMessage (msg : List Nat) : List Nat :=
  msg ++ 128 :: (List.replicate ((119 - msg.length % 64) % 64) 0 ++ toBytesBE 8 (msg.length * 8))

/-- Group bytes into big-endian 32-bit words. -/
def bytesToWords : List Nat → List Nat
  | b0 :: b1 :: b2 :: b3 :: rest =>
    (((b0 * 256 + b1) * 256 + b2) * 256 + b3) :: bytesToWords rest
  | _ => []

/-- The SHA-256 digest (32 bytes) of a byte list. -/
def sha256Bytes (msg : List Nat) : List Nat :=
  let ws := bytesToWords (padMessage msg)
  let s := sha256Blocks ws.length sha256Start ws
  toBytesBE 4 s.a ++ toBytesBE 4 s.b ++ toBytesBE 4 s.c ++ toBytesBE 4 s.d ++
  toBytesBE 4 s.e ++ toBytesBE 4 s.f ++ toBytesBE 4 s.g ++ toBytesBE 4 s.h

/-- The sixteen lowercase hex digit characters. -/
def hexChars : List Char := "0123456789abcdef".data

/-- Hex digit character for a value below 16. -/
def hexDigit (n : Nat) : Char := hexChars.getD n '0'

/-- Lowercase hex rendering of a byte list, as produced by node's
`digest("hex")`. -/
def bytesToHexChars : List Nat → List Char
  | [] => []
  | b :: bs => hexDigit (b / 16) :: hexDigit (b % 16) :: bytesToHexChars bs

/-- The lowercase hex SHA-256 digest of a byte list: the value of
`createHash("sha256").update(data).digest("hex")`. -/
def sha256hex (msg : List Nat) : String := String.mk (bytesToHexChars (sha256Bytes msg))

/-- JS `String.prototype.toLowerCase` restricted to ASCII (all strings the
update subsystem compares are ASCII hex digests). -/
def jsLowerChar (c : Char) : Char :=
  if 65 ≤ c.toNat ∧ c.toNat ≤ 90 then Char.ofNat (c.toNat + 32) else c

/-- ASCII lowercase of a string. -/
def jsToLowerCase (s : String) : String := String.mk (s.data.map jsLowerChar)

/-- `verifyHash(data, expectedHash)` from `arweave-client.ts`: the computed
lowercase hex digest must equal `expectedHash.toLowerCase()`. -/
def verifyHash (data : List Nat) (expectedHash : String) : Bool :=
  decide (sha256hex data = jsToLowerCase expectedHash)

theorem sha256hex_empty_vector :
    sha256hex [] = "e3b0c44298fc1c149afbf4c8996fb92427ae41e4649b934ca495991b7852b855" := by
  decide

theorem sha256hex_abc_vector :
    sha256hex [97, 98, 99] =
      "ba7816bf8f01cfea414140de5dae2223b00361a396177a9cb410ff61f20015ad" := by
  decide

/-! ## Data model (`src/core/install-tracker.ts`, `src/core/update-manager.ts`) -/

/-- The two installation mechanisms detected at first run. -/
inductive PackageManager
  | bun
  | npm
deriving DecidableEq

/-- Name of a package manager as it appears in commands and JSON. -/
def pmName : PackageManager → String
  | .bun => "bun"
  | .npm => "npm"

/-- The `InstallMetadata` interface: the install record persisted at
`~/.pal/install.json`.  Optional interface fields are `Option`s (absent
in JSON when `undefined`). -/
structure InstallMetadata where
  version : String
  sourceAddress : String
  transactionId : String
  installedAt : String
  installPath : String
  lastUpdateCheck : String
  packageManager : PackageManager
  previousVersion : Option String := none
  previousTxId : Option String := none
deriving DecidableEq

/-- The `UpdateInfo` interface: an in-memory update plan. -/
structure UpdateInfo where
  currentVersion : String
  newVersion : String
  transactionId : String
  sha256 : String
  publisherAddress : String
deriving DecidableEq

/-- `path.join(homedir(), ".pal", "install.json")`, with the home
directory rendered as "~". -/
def installJsonPath : String := "~/.pal/install.json"

/-- The backup directory `BACKUP_DIR`. -/
def backupDirPath : String := "~/.pal/backups"

/-- The staging directory `STAGING_DIR`. -/
def stagingDirPath : String := "~/.pal/updates/staging"

/-- Backup tarball file name used by `backupCurrentVersion` and looked up
by `rollbackUpdate`: `pal-<version>.tgz`. -/
def backupFileName (version : String) : String := "pal-" ++ version ++ ".tgz"

/-- Full path of the backup artifact for a version. -/
def backupArtifactPath (version : String) : String :=
  backupDirPath ++ "/" ++ backupFileName version

/-- Staging path of a candidate tarball: `STAGING_DIR/pal-<version>.tgz`. -/
def stagedPath (version : String) : String :=
  stagingDirPath ++ "/pal-" ++ version ++ ".tgz"

/-! ## Install record serialization and the file-write model
(`src/core/install-tracker.ts`, `saveInstallMetadata`)

`saveInstallMetadata` runs `fs.writeFileSync(installPath,
JSON.stringify(metadata, null, 2), "utf-8")`: one direct write to the
final path, with no temporary file and no rename.  Following POSIX write
semantics, a reader (or a crash) that interleaves with a direct
`writeFileSync` can observe the old content before the write, and any
prefix of the new content while the truncated file is being filled.  A
write-then-rename, by contrast, exposes only the old and the new content
at the target path.  `observableContents` captures exactly this
difference. -/

/-- JSON escaping of one character, as performed by `JSON.stringify` on
string values. -/
def escapeJsonChar (c : Char) : List Char :=
  if c = '"' then ['\\', '"']
  else if c = '\\' then ['\\', '\\']
  else if c = '\n' then ['\\', 'n']
  else if c = '\t' then ['\\', 't']
  else if c = '\r' then ['\\', 'r']
  else if c.toNat = 8 then ['\\', 'b']
  else if c.toNat = 12 then ['\\', 'f']
  else if c.toNat < 32 then
    ['\\', 'u', '0', '0', hexDigit (c.toNat / 16), hexDigit (c.toNat % 16)]
  else [c]

/-- JSON escaping of a character list. -/
def escapeJsonChars : List Char → List Char
  | [] => []
  | c :: cs => escapeJsonChar c ++ escapeJsonChars cs

/-- A JSON string literal. -/
def jsonStringChars (s : String) : List Char :=
  '"' :: (escapeJsonChars s.data ++ ['"'])

/-- One `"key": "value"` line at indentation 2. -/
def fieldChars (k v : String) : List Char :=
  ' ' :: ' ' :: (jsonStringChars k ++ ':' :: ' ' :: jsonStringChars v)

/-- Join field lines with `",\n"`. -/
def joinFields : List (String × String) → List Char
  | [] => []
  | [p] => fieldChars p.1 p.2
  | p :: rest => fieldChars p.1 p.2 ++ ',' :: '\n' :: joinFields rest

/-- The fields of the install record in the order they are created by
`initInstallMetadata` and mutated by the orchestrator (matching the
`InstallMetadata` interface declaration, optional fields last). -/
def metadataFields (m : InstallMetadata) : List (String × String) :=
  [("version", m.version), ("sourceAddress", m.sourceAddress),
   ("transactionId", m.transactionId), ("installedAt", m.installedAt),
   ("installPath", m.installPath), ("lastUpdateCheck", m.lastUpdateCheck),
   ("packageManager", pmName m.packageManager)] ++
  (match m.previousVersion with
   | some v => [("previousVersion", v)]
   | none => []) ++
  (match m.previousTxId with
   | some v => [("previousTxId", v)]
   | none => [])

/-- Character list of `JSON.stringify(metadata, null, 2)`. -/
def serializeChars (m : InstallMetadata) : List Char :=
  '\x7b' :: '\n' :: (joinFields (metadataFields m) ++ '\n' :: '\x7d' :: [])

/-- `JSON.stringify(metadata, null, 2)`. -/
def serializeInstallMetadata (m : InstallMetadata) : String :=
  String.mk (serializeChars m)

/-- A whole-file write operation on one path: either a direct in-place
write (`fs.writeFileSync` to the final path) or a write to a temporary
file followed by an atomic rename onto the path. -/
inductive FsWrite
  | direct (path content : String)
  | writeThenRename (path content : String)
deriving DecidableEq

/-- The contents a direct write makes observable while in progress: each
take-prefix of the new content (the file is truncated, then filled). -/
def writeStages (c : String) : List String :=
  (List.range (c.data.length + 1)).map (fun n => String.mk (c.data.take n))

/-- All file contents observable at the path during a write, given the
old content `old`: a rename exposes only old and new, a direct write also
exposes every partial stage. -/
def observableContents : FsWrite → String → List String
  | .direct _ c, old => old :: writeStages c
  | .writeThenRename _ c, old => [old, c]

/-- The write `saveInstallMetadata(metadata)` performs: a direct
`writeFileSync` of the serialized record to `~/.pal/install.json`. -/
def saveInstallMetadataWrite (m : InstallMetadata) : FsWrite :=
  .direct installJsonPath (serializeInstallMetadata m)

/-! ## Install record store state (`src/core/install-tracker.ts`,
`loadInstallMetadata`, `recordUpdateCheck`) -/

/-- The on-disk states of `~/.pal/install.json` that
`loadInstallMetadata` distinguishes: missing file, unparseable file, or a
valid record. -/
inductive PersistedRecord
  | absent
  | corrupt (raw : String)
  | valid (m : InstallMetadata)
deriving DecidableEq

/-- `loadInstallMetadata()`: `null` when the file is absent or fails to
parse (logged, not fatal), otherwise the record. -/
def loadInstallMetadataFrom : PersistedRecord → Option InstallMetadata
  | .absent => none
  | .corrupt _ => none
  | .valid m => some m

/-- `recordUpdateCheck()` at time `now`: load the record, and only if one
was loaded, set `lastUpdateCheck` and save. -/
def recordUpdateCheck (p : PersistedRecord) (now : String) : PersistedRecord :=
  match loadInstallMetadataFrom p with
  | some m => .valid { m with lastUpdateCheck := now }
  | none => p

/-- The persisted last-check timestamp visible in a record state. -/
def lastCheckOf : PersistedRecord → Option String
  | .valid m => some m.lastUpdateCheck
  | _ => none

/-! ## Post-apply verification (`src/core/update-manager.ts`,
`verifyInstallation`) -/

/-- Whether `needle` occurs at the start of `hay`. -/
def startsWithChars : List Char → List Char → Bool
  | _, [] => true
  | [], _ :: _ => false
  | h :: hs, n :: ns => h == n && startsWithChars hs ns

/-- JS `String.prototype.includes`: `needle` occurs somewhere in `hay`. -/
def containsSub : List Char → List Char → Bool
  | [], needle => startsWithChars [] needle
  | h :: hs, needle => startsWithChars (h :: hs) needle || containsSub hs needle

/-- `verifyInstallation(expectedVersion)`: run `pal --version` and test
`output.includes(expectedVersion)`; a failing subprocess (output `none`)
yields `false`. -/
def verifyInstallation (expectedVersion : String) (output : Option String) : Bool :=
  match output with
  | none => false
  | some o => containsSub o.data expectedVersion.data

/-! ## Update orchestrator (`src/core/update-manager.ts`, `stageUpdate`,
`backupCurrentVersion`, `applyUpdate`, `rollbackUpdate`)

The orchestrator's interactions with the outside world (downloads, the
manifest, subprocesses, the backup directory) are collected in a `World`
value, and its side effects on the installation are collected in a
`Trace`:
  - `downloads` counts calls to `downloadPackage`;
  - `staged` lists files written to the staging directory;
  - `backups` lists backup tarballs created by `backupCurrentVersion`;
  - `pmInstalls` lists tarball paths passed to the package manager's
    global install (each one replaces the running binary);
  - `saved` lists the records passed to `saveInstallMetadata`, in order;
  - `messages` records the rollback failure diagnostics printed by
    `rollbackUpdate` (other console output is not modelled). -/

/-- External environment of one orchestrator run. -/
structure World where
  metadata : Option InstallMetadata
  trustedPublisher : Option String
  download1 : List Nat
  download2 : List Nat
  backupOk : Bool
  backupFiles : List String
  applySucceeds : String → Bool
  versionOutput : Option String
  now : String

/-- Side effects of one orchestrator run. -/
structure Trace where
  downloads : Nat := 0
  staged : List (String × List Nat) := []
  backups : List String := []
  pmInstalls : List String := []
  saved : List InstallMetadata := []
  messages : List String := []
deriving DecidableEq

/-- The empty trace: nothing downloaded, staged, installed, or saved. -/
def Trace.empty : Trace := {}

/-- JS string interpolation of a nullable: `null` renders as "null". -/
def showNullable : Option String → String
  | none => "null"
  | some s => s

/-- The error thrown when the candidate's publisher differs from the
publisher stored in the install record. -/
def pubMismatchRecordMsg (candidate stored : String) : String :=
  "Update rejected: signed by different publisher (" ++ candidate ++ " != " ++ stored ++ ")"

/-- The error thrown when the candidate's publisher differs from the
publisher in the installed package's manifest. -/
def pubMismatchManifestMsg (candidate : String) (trusted : Option String) : String :=
  "Update rejected: publisher mismatch with installed package (" ++
    candidate ++ " != " ++ showNullable trusted ++ ")"

/-- Result of `stageUpdate`: either a staged tarball (path, bytes, number
of downloads performed) or a hash mismatch on both the first download and
the retry. -/
inductive StageResult
  | staged (tarballPath : String) (data : List Nat) (downloads : Nat)
  | failed (downloads : Nat)
deriving DecidableEq

/-- `stageUpdate(update)` with the default `retryCount = 1`: download,
verify the SHA-256, retry the full download once on mismatch, and throw
after a second mismatch.  The tarball is written to staging only after
its hash verifies. -/
def stageUpdate (w : World) (u : UpdateInfo) : StageResult :=
  if verifyHash w.download1 u.sha256 then .staged (stagedPath u.newVersion) w.download1 1
  else if verifyHash w.download2 u.sha256 then .staged (stagedPath u.newVersion) w.download2 2
  else .failed 2

/-- JS falsiness of a nullable string (`null`, `undefined`, and `""` are
falsy). -/
def falsyStr : Option String → Bool
  | none => true
  | some s => s.isEmpty

/-- The recovery command printed when rollback fails.  Note the file name
it references: `<version>.tgz`, with no `pal-` prefix. -/
def manualFixMsg (pm : PackageManager) (prev : String) : String :=
  "Manual fix: " ++ pmName pm ++ " install -g ~/.pal/backups/" ++ prev ++ ".tgz"

/-- `rollbackUpdate()`: reload the record, require a previous
version/transaction pair, locate `BACKUP_DIR/pal-<prev>.tgz`, reinstall
it, and persist the restored record with the pair cleared.  Any failure
inside the `try` is caught and reported together with the manual-fix
command; a missing record throws. -/
def rollbackUpdate (meta : Option InstallMetadata) (backupFiles : List String)
    (applySucceeds : String → Bool) : Except String Bool × Trace :=
  match meta with
  | none => (.error "No install metadata found", {})
  | some m =>
    if falsyStr m.previousVersion || falsyStr m.previousTxId then
      (.ok false, { messages := ["No previous version to rollback to"] })
    else
      let prev := m.previousVersion.getD ""
      let prevTx := m.previousTxId.getD ""
      let backupPath := backupArtifactPath prev
      if backupFiles.contains (backupFileName prev) then
        if applySucceeds backupPath then
          (.ok true,
           { pmInstalls := [backupPath]
             saved := [{ m with
                         version := prev
                         transactionId := prevTx
                         previousVersion := none
                         previousTxId := none }] })
        else
          (.ok false,
           { pmInstalls := [backupPath]
             messages := ["Rollback failed: Error: install command failed",
                          manualFixMsg m.packageManager prev] })
      else
        (.ok false,
         { messages := ["Rollback failed: Error: Backup not found: " ++ backupPath,
                        manualFixMsg m.packageManager prev] })

/-- The record persisted on a successful commit: new version and
transaction, the pre-update pair stored for rollback, and a refreshed
install timestamp. -/
def commitMetadata (m : InstallMetadata) (u : UpdateInfo) (now : String) : InstallMetadata :=
  { m with
    version := u.newVersion
    transactionId := u.transactionId
    previousVersion := some m.version
    previousTxId := some m.transactionId
    installedAt := now }

/-- Propagation of a `catch`-block rollback: the caught update error is
swallowed and `false` is returned, but an error thrown by
`rollbackUpdate` itself escapes. -/
def afterCatch : Except String Bool → Except String Bool
  | .error e => .error e
  | .ok _ => .ok false

/-- `applyUpdate(update, options)`.  In order: load the record (throw if
missing); check the candidate's publisher against the record's
`sourceAddress`, then against the manifest publisher re-read by
`getTrustedPublisher()` (comparison with `null` is always a mismatch);
then stage, back up the current version, install the staged tarball,
verify the installed version unless `force` is set, and either commit or
roll back.  Every error inside the `try` lands in a `catch` that runs
`rollbackUpdate()` and returns `false`.  (When the record was loaded,
`rollbackUpdate` cannot throw, so the double-rollback the `catch` would
trigger on such a throw cannot occur and is not modelled.) -/
def applyUpdate (w : World) (u : UpdateInfo) (force : Bool) : Except String Bool × Trace :=
  match w.metadata with
  | none => (.error "No install metadata found", {})
  | some metadata =>
    if u.publisherAddress ≠ metadata.sourceAddress then
      (.error (pubMismatchRecordMsg u.publisherAddress metadata.sourceAddress), Trace.empty)
    else if some u.publisherAddress ≠ w.trustedPublisher then
      (.error (pubMismatchManifestMsg u.publisherAddress w.trustedPublisher), Trace.empty)
    else
      match stageUpdate w u with
      | .failed n =>
        let r := rollbackUpdate w.metadata w.backupFiles w.applySucceeds
        (afterCatch r.1, { r.2 with downloads := n })
      | .staged tarballPath data n =>
        let backupsMade :=
          if w.backupOk then [backupFileName metadata.version] else []
        let newBackupFiles :=
          if w.backupOk then backupFileName metadata.version :: w.backupFiles
          else w.backupFiles
        if w.applySucceeds tarballPath then
          if !force && !verifyInstallation u.newVersion w.versionOutput then
            let r := rollbackUpdate w.metadata newBackupFiles w.applySucceeds
            (.ok false,
             { downloads := n
               staged := [(tarballPath, data)]
               backups := backupsMade
               pmInstalls := tarballPath :: r.2.pmInstalls
               saved := r.2.saved
               messages := r.2.messages })
          else
            (.ok true,
             { downloads := n
               staged := [(tarballPath, data)]
               backups := backupsMade
               pmInstalls := [tarballPath]
               saved := [commitMetadata metadata u w.now] })
        else
          let r := rollbackUpdate w.metadata newBackupFiles w.applySucceeds
          (afterCatch r.1,
           { downloads := n
             staged := [(tarballPath, data)]
             backups := backupsMade
             pmInstalls := tarballPath :: r.2.pmInstalls
             saved := r.2.saved
             messages := r.2.messages })

theorem parseSemver_example1 : parseSemver "1.2.3" = some (1, 2, 3) := by decide

theorem parseSemver_example2 : parseSemver "1.2.3-beta" = some (1, 2, 3) := by decide

theorem parseSemver_example3 : parseSemver "abc" = none := by decide

theorem compareVersions_example : compareVersions "2.0.0" "1.9.9" = 1 := by decide

/-! ## Claim C8: comparator agreement and irreflexivity -/

/-- Comparing any version string with itself yields 0 (both sides parse to
the same components, or both fail to parse). -/
theorem compareVersions_self (v : String) : compareVersions v v = 0 := by
  unfold compareVersions
  cases h : parseSemver v with
  | none => rfl
  | some t =>
    obtain ⟨a1, a2, a3⟩ := t
    simp

/-- C8: for strict `major.minor.patch` strings, `isNewerVersion(a, b)`
holds exactly when `compareVersions(a, b) > 0`, and `isNewerVersion` is
irreflexive. -/
theorem isNewerVersion_agrees_and_irreflexive :
    (∀ a b : String, isStrictSemver a = true → isStrictSemver b = true →
      (isNewerVersion a b = true ↔ compareVersions a b > 0)) ∧
    (∀ v : String, isStrictSemver v = true → isNewerVersion v v = false) := by
  constructor
  · intro a b _ _
    simp [isNewerVersion]
  · intro v _
    simp [isNewerVersion, compareVersions_self]

/-- Witness for C8 at concrete strict versions. -/
theorem isNewerVersion_agrees_and_irreflexive_witness :
    (isNewerVersion "1.2.3" "1.0.0" = true ↔ compareVersions "1.2.3" "1.0.0" > 0) ∧
    isNewerVersion "1.2.3" "1.2.3" = false :=
  ⟨isNewerVersion_agrees_and_irreflexive.1 "1.2.3" "1.0.0" (by decide) (by decide),
   isNewerVersion_agrees_and_irreflexive.2 "1.2.3" (by decide)⟩

/-! ## Claim C10: unparseable versions and ignored suffixes -/

/-- Whether a character list does not begin with an ASCII digit (so a
leading `\d+` group cannot consume any of it). -/
def noDigitHead : List Char → Bool
  | [] => true
  | c :: _ => !c.isDigit

/-- A digit run followed by a non-digit remainder splits cleanly under
`takeDigits`. -/
theorem takeDigits_append (ds rest : List Char) (hd : ∀ c ∈ ds, c.isDigit = true)
    (hr : noDigitHead rest = true) : takeDigits (ds ++ rest) = (ds, rest) := by
  induction ds with
  | nil =>
    cases rest with
    | nil => rfl
    | cons c cs =>
      simp only [noDigitHead, Bool.not_eq_true'] at hr
      simp [takeDigits, hr]
  | cons c cs ih =>
    have hc : c.isDigit = true := hd c (List.mem_cons_self c cs)
    have ih2 := ih (fun x hx => hd x (List.mem_cons_of_mem c hx))
    simp [takeDigits, hc, ih2]

/-- The parser recovers the three digit groups from any string of shape
`<digits>.<digits>.<digits><suffix>` whose suffix does not start with a
digit. -/
theorem parseSemverChars_shape (d1 d2 d3 s : List Char)
    (h1 : d1 ≠ []) (h2 : d2 ≠ []) (h3 : d3 ≠ [])
    (hd1 : ∀ c ∈ d1, c.isDigit = true) (hd2 : ∀ c ∈ d2, c.isDigit = true)
    (hd3 : ∀ c ∈ d3, c.isDigit = true) (hs : noDigitHead s = true) :
    parseSemverChars (d1 ++ '.' :: (d2 ++ '.' :: (d3 ++ s))) =
      some (digitsVal d1, digitsVal d2, digitsVal d3) := by
  have t1 : takeDigits (d1 ++ '.' :: (d2 ++ '.' :: (d3 ++ s))) =
      (d1, '.' :: (d2 ++ '.' :: (d3 ++ s))) := takeDigits_append _ _ hd1 (by rfl)
  have t2 : takeDigits (d2 ++ '.' :: (d3 ++ s)) = (d2, '.' :: (d3 ++ s)) :=
    takeDigits_append _ _ hd2 (by rfl)
  have t3 : takeDigits (d3 ++ s) = (d3, s) := takeDigits_append _ _ hd3 hs
  obtain ⟨c1, cs1, rfl⟩ := List.exists_cons_of_ne_nil h1
  obtain ⟨c2, cs2, rfl⟩ := List.exists_cons_of_ne_nil h2
  obtain ⟨c3, cs3, rfl⟩ := List.exists_cons_of_ne_nil h3
  simp only [parseSemverChars, t1, t2, t3]

/-- Equal parses give comparison 0. -/
theorem compareVersions_of_parse_eq (a b : String)
    (h : parseSemver a = parseSemver b) : compareVersions a b = 0 := by
  unfold compareVersions
  rw [h]
  cases hb : parseSemver b with
  | none => rfl
  | some t =>
    obtain ⟨b1, b2, b3⟩ := t
    simp

/-- C10: a string without a leading numeric `major.minor.patch` group
makes `compareVersions` return 0 and `isNewerVersion` false both ways; a
trailing non-digit suffix after the numeric group is ignored, so versions
differing only in such a suffix compare equal. -/
theorem compareVersions_unparseable_and_suffix :
    (∀ a b : String, parseSemver a = none ∨ parseSemver b = none →
      compareVersions a b = 0 ∧ isNewerVersion a b = false ∧ isNewerVersion b a = false) ∧
    (∀ d1 d2 d3 s t : List Char, d1 ≠ [] → d2 ≠ [] → d3 ≠ [] →
      (∀ c ∈ d1, c.isDigit = true) → (∀ c ∈ d2, c.isDigit = true) →
      (∀ c ∈ d3, c.isDigit = true) → noDigitHead s = true → noDigitHead t = true →
      compareVersions (String.mk (d1 ++ '.' :: (d2 ++ '.' :: (d3 ++ s))))
        (String.mk (d1 ++ '.' :: (d2 ++ '.' :: (d3 ++ t)))) = 0) := by
  constructor
  · intro a b h
    have hc : compareVersions a b = 0 := by
      unfold compareVersions
      rcases h with h | h
      · rw [h]
      · rw [h]; cases parseSemver a <;> rfl
    have hc2 : compareVersions b a = 0 := by
      unfold compareVersions
      rcases h with h | h
      · rw [h]; cases parseSemver b <;> rfl
      · rw [h]
    refine ⟨hc, ?_, ?_⟩ <;> simp [isNewerVersion, hc, hc2]
  · intro d1 d2 d3 s t h1 h2 h3 hd1 hd2 hd3 hs ht
    apply compareVersions_of_parse_eq
    show parseSemverChars _ = parseSemverChars _
    rw [parseSemverChars_shape d1 d2 d3 s h1 h2 h3 hd1 hd2 hd3 hs,
        parseSemverChars_shape d1 d2 d3 t h1 h2 h3 hd1 hd2 hd3 ht]

/-- Witness for C10: an unparseable version on either side, and the
suffix "-beta" being ignored. -/
theorem compareVersions_unparseable_and_suffix_witness :
    (compareVersions "abc" "1.2.3" = 0 ∧ isNewerVersion "abc" "1.2.3" = false ∧
      isNewerVersion "1.2.3" "abc" = false) ∧
    compareVersions (String.mk (['1'] ++ '.' :: (['2'] ++ '.' :: (['3'] ++ ['-', 'b', 'e', 't', 'a']))))
      (String.mk (['1'] ++ '.' :: (['2'] ++ '.' :: (['3'] ++ [])))) = 0 :=
  ⟨compareVersions_unparseable_and_suffix.1 "abc" "1.2.3" (Or.inl (by decide)),
   compareVersions_unparseable_and_suffix.2 ['1'] ['2'] ['3'] ['-', 'b', 'e', 't', 'a'] []
     (by decide) (by decide) (by decide) (by decide) (by decide) (by decide)
     (by decide) (by decide)⟩

/-! ## Claim C9: hash verification is a pure predicate -/

/-- Every lowercase hex digit is a fixed point of ASCII lowercasing. -/
theorem jsLowerChar_of_mem_hexChars : ∀ c ∈ hexChars, jsLowerChar c = c := by decide

/-- An indexed element of a list is a member, or the default. -/
theorem getD_mem_or_default {α : Type} (l : List α) (n : Nat) (d : α) :
    l.getD n d ∈ l ∨ l.getD n d = d := by
  induction l generalizing n with
  | nil => right; cases n <;> rfl
  | cons a t ih =>
    cases n with
    | zero => left; simp [List.getD]
    | succ k =>
      rcases ih k with h | h
      · left; simpa [List.getD] using Or.inr (by simpa [List.getD] using h)
      · right; simpa [List.getD] using h

/-- `hexDigit` always lands in the sixteen lowercase hex characters. -/
theorem hexDigit_mem_hexChars (n : Nat) : hexDigit n ∈ hexChars := by
  rcases getD_mem_or_default hexChars n '0' with h | h
  · exact h
  · unfold hexDigit
    rw [h]
    decide

/-- Characters of a hex rendering are hex digits. -/
theorem mem_bytesToHexChars (bs : List Nat) (c : Char) (h : c ∈ bytesToHexChars bs) :
    c ∈ hexChars := by
  induction bs with
  | nil => simp [bytesToHexChars] at h
  | cons b t ih =>
    simp only [bytesToHexChars, List.mem_cons] at h
    rcases h with rfl | rfl | h
    · exact hexDigit_mem_hexChars _
    · exact hexDigit_mem_hexChars _
    · exact ih h

/-- Mapping a function that fixes every element of a list is the
identity. -/
theorem map_eq_self_of_fixed {α : Type} (f : α → α) (l : List α)
    (h : ∀ x ∈ l, f x = x) : l.map f = l := by
  induction l with
  | nil => rfl
  | cons a t ih =>
    simp only [List.map_cons, h a (List.mem_cons_self a t)]
    rw [ih (fun x hx => h x (List.mem_cons_of_mem a hx))]

/-- A SHA-256 hex digest is already lowercase, so `toLowerCase` fixes it. -/
theorem jsToLowerCase_sha256hex (d : List Nat) :
    jsToLowerCase (sha256hex d) = sha256hex d := by
  unfold jsToLowerCase sha256hex
  exact congrArg String.mk
    (map_eq_self_of_fixed _ _
      (fun c hc => jsLowerChar_of_mem_hexChars c (mem_bytesToHexChars _ c hc)))

/-- C9: hash verification is a pure predicate on the bytes and the
expected hex digest — it accepts the bytes' own digest, rejects the
digest of any bytes hashing differently, and is insensitive to the letter
case of the expected digest. -/
theorem verifyHash_pure_predicate :
    (∀ d : List Nat, verifyHash d (sha256hex d) = true) ∧
    (∀ d d' : List Nat, sha256hex d' ≠ sha256hex d →
      verifyHash d' (sha256hex d) = false) ∧
    (∀ (d : List Nat) (h h' : String), jsToLowerCase h' = jsToLowerCase h →
      verifyHash d h' = verifyHash d h) := by
  refine ⟨?_, ?_, ?_⟩
  · intro d
    unfold verifyHash
    rw [jsToLowerCase_sha256hex]
    simp
  · intro d d' hne
    unfold verifyHash
    rw [jsToLowerCase_sha256hex]
    simp [hne]
  · intro d h h' he
    unfold verifyHash
    rw [he]

/-- Witness for C9 on concrete byte lists and digests. -/
theorem verifyHash_pure_predicate_witness :
    verifyHash [] (sha256hex []) = true ∧
    verifyHash [0] (sha256hex []) = false ∧
    verifyHash [1, 2, 3] "AB" = verifyHash [1, 2, 3] "ab" :=
  ⟨verifyHash_pure_predicate.1 [],
   verifyHash_pure_predicate.2.1 [] [0] (by decide),
   verifyHash_pure_predicate.2.2 [1, 2, 3] "ab" "AB" (by decide)⟩

/-! ## Claim C4: post-apply verification -/

/-- `startsWithChars` means the needle is an initial segment. -/
theorem startsWithChars_iff (hay needle : List Char) :
    startsWithChars hay needle = true ↔ ∃ post, hay = needle ++ post := by
  induction needle generalizing hay with
  | nil =>
    simp only [startsWithChars, List.nil_append, true_iff]
    exact ⟨hay, rfl⟩
  | cons n ns ih =>
    cases hay with
    | nil =>
      simp [startsWithChars]
    | cons h hs =>
      simp only [startsWithChars, Bool.and_eq_true, beq_iff_eq, ih, List.cons_append,
        List.cons.injEq]
      constructor
      · rintro ⟨rfl, post, rfl⟩
        exact ⟨post, rfl, rfl⟩
      · rintro ⟨post, rfl, rfl⟩
        exact ⟨rfl, post, rfl⟩

/-- `containsSub` means the needle occurs as a contiguous substring. -/
theorem containsSub_iff (hay needle : List Char) :
    containsSub hay needle = true ↔ ∃ pre post, hay = pre ++ needle ++ post := by
  induction hay with
  | nil =>
    simp only [containsSub, startsWithChars_iff]
    constructor
    · rintro ⟨post, hp⟩
      exact ⟨[], post, by simpa using hp⟩
    · rintro ⟨pre, post, hp⟩
      rcases List.append_eq_nil.mp (List.append_eq_nil.mp hp.symm).1 with ⟨h1, h2⟩
      exact ⟨[], by simp [h2]⟩
  | cons h hs ih =>
    simp only [containsSub, Bool.or_eq_true, startsWithChars_iff, ih]
    constructor
    · rintro (⟨post, hp⟩ | ⟨pre, post, hp⟩)
      · exact ⟨[], post, by simpa using hp⟩
      · exact ⟨h :: pre, post, by simp [hp]⟩
    · rintro ⟨pre, post, hp⟩
      cases pre with
      | nil => exact Or.inl ⟨post, by simpa using hp⟩
      | cons p ps =>
        simp only [List.cons_append, List.cons.injEq] at hp
        exact Or.inr ⟨ps, post, hp.2⟩

/-- Counterexample to C4 as stated: with candidate version "1.2.3" and a
version-report output of "1.2.30" — a reported version different from the
candidate — verification nevertheless succeeds, because the code tests
`output.includes(expectedVersion)` rather than equality. -/
theorem verifyInstallation_not_exact_counterexample :
    verifyInstallation "1.2.3" (some "1.2.30") = true ∧ ("1.2.30" : String) ≠ "1.2.3" := by
  constructor
  · decide
  · decide

/-- C4 amended: post-apply verification succeeds if and only if the
version-report command succeeds and its output contains the candidate
version as a contiguous substring (a failing command yields false; exact
equality of the reported version is not required). -/
theorem verifyInstallation_iff_substring :
    ∀ (e : String) (out : Option String),
      verifyInstallation e out = true ↔
        ∃ o : String, out = some o ∧ ∃ pre post, o.data = pre ++ e.data ++ post := by
  intro e out
  cases out with
  | none => simp [verifyInstallation]
  | some o => simp [verifyInstallation, containsSub_iff]

/-! ## Claim C7: recording the last update check -/

/-- A concrete install record shared by the concrete scenarios below: an
installation at version 1.1.0 that was updated from 1.0.0 at some point,
so its rollback pair is populated (the commit path stores the pair and
nothing clears it until a rollback). -/
def sampleMetadata : InstallMetadata :=
  { version := "1.1.0"
    sourceAddress := "addr-pub-A"
    transactionId := "tx-current"
    installedAt := "2026-01-01T00:00:00.000Z"
    installPath := "/usr/local/lib"
    lastUpdateCheck := "2026-01-01T00:00:00.000Z"
    packageManager := .npm
    previousVersion := some "1.0.0"
    previousTxId := some "tx-prev" }

/-- Counterexample to C7 as stated: when the install record is absent,
`recordUpdateCheck` persists nothing, so the last-check timestamp after
the attempt is not the attempt time. -/
theorem recordUpdateCheck_absent_counterexample :
    lastCheckOf (recordUpdateCheck .absent "2026-10-12T00:00:00.000Z") ≠
      some "2026-10-12T00:00:00.000Z" := by
  decide

/-- C7 amended: when a valid record is present, `recordUpdateCheck` sets
its last-check timestamp to the attempt time (in one whole-record save);
when the record is absent or corrupt, it is a no-op and persists
nothing. -/
theorem recordUpdateCheck_behavior :
    (∀ (m : InstallMetadata) (now : String),
      recordUpdateCheck (.valid m) now = .valid { m with lastUpdateCheck := now }) ∧
    (∀ (p : PersistedRecord) (now : String), loadInstallMetadataFrom p = none →
      recordUpdateCheck p now = p) := by
  constructor
  · intro m now
    rfl
  · intro p now h
    unfold recordUpdateCheck
    rw [h]

/-- Witness for C7 on a present record and on an absent one. -/
theorem recordUpdateCheck_behavior_witness :
    recordUpdateCheck (.valid sampleMetadata) "2026-10-12T00:00:00.000Z" =
      .valid { sampleMetadata with lastUpdateCheck := "2026-10-12T00:00:00.000Z" } ∧
    recordUpdateCheck .absent "2026-10-12T00:00:00.000Z" = .absent :=
  ⟨recordUpdateCheck_behavior.1 sampleMetadata "2026-10-12T00:00:00.000Z",
   recordUpdateCheck_behavior.2 .absent "2026-10-12T00:00:00.000Z" rfl⟩

/-! ## Claim C1: publisher mismatch fails closed before staging -/

/-- C1: whenever the candidate's publisher differs from the record's
stored publisher, or differs from the manifest publisher (including a
missing manifest identity), or the two stored identities disagree with
each other, `applyUpdate` throws a publisher-mismatch error with an empty
effect trace: zero downloads, nothing staged, no package-manager install,
no record saved — for any candidate version and with or without
`force`. -/
theorem applyUpdate_publisher_mismatch (w : World) (u : UpdateInfo) (force : Bool)
    (m : InstallMetadata) (hm : w.metadata = some m)
    (hmis : u.publisherAddress ≠ m.sourceAddress ∨
            w.trustedPublisher ≠ some u.publisherAddress ∨
            w.trustedPublisher ≠ some m.sourceAddress) :
    ∃ e, applyUpdate w u force = (.error e, Trace.empty) ∧
      (e = pubMismatchRecordMsg u.publisherAddress m.sourceAddress ∨
       e = pubMismatchManifestMsg u.publisherAddress w.trustedPublisher) := by
  by_cases h1 : u.publisherAddress = m.sourceAddress
  · have h2 : some u.publisherAddress ≠ w.trustedPublisher := by
      rcases hmis with h | h | h
      · exact absurd h1 h
      · exact fun he => h he.symm
      · intro he
        rw [h1] at he
        exact h he.symm
    refine ⟨pubMismatchManifestMsg u.publisherAddress w.trustedPublisher, ?_, Or.inr rfl⟩
    unfold applyUpdate
    rw [hm]
    dsimp only
    rw [if_neg (not_not_intro h1), if_pos h2]
  · refine ⟨pubMismatchRecordMsg u.publisherAddress m.sourceAddress, ?_, Or.inl rfl⟩
    unfold applyUpdate
    rw [hm]
    dsimp only
    rw [if_pos h1]

/-- A world whose candidate update is signed by a different publisher
than the one in the install record and manifest. -/
def mismatchWorld : World :=
  { metadata := some sampleMetadata
    trustedPublisher := some "addr-pub-A"
    download1 := [1, 2, 3]
    download2 := [1, 2, 3]
    backupOk := true
    backupFiles := [backupFileName "1.0.0"]
    applySucceeds := fun _ => true
    versionOutput := some "1.2.0"
    now := "2026-02-01T00:00:00.000Z" }

/-- A candidate signed by publisher B while the installation trusts A. -/
def mismatchUpdate : UpdateInfo :=
  { currentVersion := "1.1.0"
    newVersion := "9.9.9"
    transactionId := "tx-evil"
    sha256 := "ffff"
    publisherAddress := "addr-pub-B" }

/-- Witness for C1 at a concrete mismatching world. -/
theorem applyUpdate_publisher_mismatch_witness :
    ∃ e, applyUpdate mismatchWorld mismatchUpdate false = (.error e, Trace.empty) ∧
      (e = pubMismatchRecordMsg mismatchUpdate.publisherAddress sampleMetadata.sourceAddress ∨
       e = pubMismatchManifestMsg mismatchUpdate.publisherAddress mismatchWorld.trustedPublisher) :=
  applyUpdate_publisher_mismatch mismatchWorld mismatchUpdate false sampleMetadata rfl
    (Or.inl (by decide))

/-! ## Claim C2: double hash mismatch -/

/-- A world where both the first download and the retry hash to values
different from the declared digest, while the install record still holds
the rollback pair left by the previous successful update and that
version's backup tarball exists. -/
def hashMismatchWorld : World :=
  { metadata := some sampleMetadata
    trustedPublisher := some "addr-pub-A"
    download1 := [1]
    download2 := [2]
    backupOk := true
    backupFiles := [backupFileName "1.0.0"]
    applySucceeds := fun _ => true
    versionOutput := some "1.2.0"
    now := "2026-02-01T00:00:00.000Z" }

/-- A correctly signed candidate whose declared digest matches neither
download. -/
def hashMismatchUpdate : UpdateInfo :=
  { currentVersion := "1.1.0"
    newVersion := "1.2.0"
    transactionId := "tx-new"
    sha256 := "ffff"
    publisherAddress := "addr-pub-A" }

set_option maxRecDepth 8192 in
/-- Evaluation of `applyUpdate` at the C2 failing input: after the second
hash mismatch the thrown error lands in the catch-all handler, which runs
`rollbackUpdate` — the package manager reinstalls the 1.0.0 backup over
the working 1.1.0 installation and the install record is rewritten to
version 1.0.0.  No staged tarball is written, but the current install is
mutated, contradicting "no side effects to the current install". -/
theorem applyUpdate_hash_mismatch_rolls_back :
    applyUpdate hashMismatchWorld hashMismatchUpdate false =
      (.ok false,
       { downloads := 2
         staged := []
         backups := []
         pmInstalls := [backupArtifactPath "1.0.0"]
         saved := [{ sampleMetadata with
                     version := "1.0.0"
                     transactionId := "tx-prev"
                     previousVersion := none
                     previousTxId := none }]
         messages := [] }) := by
  rfl

/-! ## Claim C5: force-reinstall mode -/

/-- A world where staging and apply succeed but the post-apply version
report shows the old version 1.1.0, not the candidate 1.2.0.  The
declared digest is the true SHA-256 of the downloaded bytes. -/
def forceWorld : World :=
  { metadata := some sampleMetadata
    trustedPublisher := some "addr-pub-A"
    download1 := [1, 2, 3]
    download2 := [1, 2, 3]
    backupOk := true
    backupFiles := [backupFileName "1.0.0"]
    applySucceeds := fun _ => true
    versionOutput := some "1.1.0"
    now := "2026-02-01T00:00:00.000Z" }

/-- A correctly signed candidate at version 1.2.0 whose digest matches
the download. -/
def forceUpdate : UpdateInfo :=
  { currentVersion := "1.1.0"
    newVersion := "1.2.0"
    transactionId := "tx-new"
    sha256 := "039058c6f2c0cb492c533b0a4d14ef77cc0f78abccced5287d84a1a2011cfb81"
    publisherAddress := "addr-pub-A" }

set_option maxRecDepth 8192 in
/-- Counterexample to C5 as stated: with `force` the post-apply
verification would fail (the binary reports 1.1.0, not the candidate
1.2.0), yet the forced update commits and returns success — no rollback
— while the identical non-forced update is rolled back.  Force mode
skips step 6 (post-apply verification), not only the newer-than check. -/
theorem applyUpdate_force_skips_verification_counterexample :
    verifyInstallation forceUpdate.newVersion forceWorld.versionOutput = false ∧
    applyUpdate forceWorld forceUpdate true =
      (.ok true,
       { downloads := 1
         staged := [(stagedPath "1.2.0", [1, 2, 3])]
         backups := [backupFileName "1.1.0"]
         pmInstalls := [stagedPath "1.2.0"]
         saved := [commitMetadata sampleMetadata forceUpdate forceWorld.now] }) ∧
    (applyUpdate forceWorld forceUpdate false).1 = .ok false ∧
    (applyUpdate forceWorld forceUpdate false).2.saved =
      [{ sampleMetadata with
         version := "1.0.0"
         transactionId := "tx-prev"
         previousVersion := none
         previousTxId := none }] := by
  exact ⟨rfl, rfl, rfl, rfl⟩

/-- C5 amended: force-reinstall mode bypasses the strictly-newer check
and also the post-apply installed-version verification.  Steps 2–4 still
run — the download is hash-verified, the current version is backed up
(when `npm pack` succeeds), and the staged tarball is installed — and the
update then commits unconditionally: for every version-report output, the
forced update ends committed, never rolled back. -/
theorem applyUpdate_force_behavior (w : World) (u : UpdateInfo) (m : InstallMetadata)
    (hm : w.metadata = some m)
    (h1 : u.publisherAddress = m.sourceAddress)
    (h2 : w.trustedPublisher = some u.publisherAddress)
    (hhash : verifyHash w.download1 u.sha256 = true)
    (happly : w.applySucceeds (stagedPath u.newVersion) = true) :
    applyUpdate w u true =
      (.ok true,
       { downloads := 1
         staged := [(stagedPath u.newVersion, w.download1)]
         backups := if w.backupOk then [backupFileName m.version] else []
         pmInstalls := [stagedPath u.newVersion]
         saved := [commitMetadata m u w.now] }) := by
  have hs : stageUpdate w u = .staged (stagedPath u.newVersion) w.download1 1 := by
    unfold stageUpdate
    rw [if_pos hhash]
  have h2' : ¬ some u.publisherAddress ≠ w.trustedPublisher := by
    rw [h2]
    exact not_not_intro rfl
  unfold applyUpdate
  rw [hm]
  dsimp only
  rw [if_neg (not_not_intro h1), if_neg h2', hs]
  dsimp only
  rw [if_pos happly]
  simp only [Bool.not_true, Bool.false_and, Bool.false_eq_true, if_false]

set_option maxRecDepth 8192 in
/-- Witness for the amended C5 at the concrete force-reinstall world. -/
theorem applyUpdate_force_behavior_witness :
    applyUpdate forceWorld forceUpdate true =
      (.ok true,
       { downloads := 1
         staged := [(stagedPath "1.2.0", [1, 2, 3])]
         backups := [backupFileName "1.1.0"]
         pmInstalls := [stagedPath "1.2.0"]
         saved := [commitMetadata sampleMetadata forceUpdate forceWorld.now] }) := by
  exact applyUpdate_force_behavior forceWorld forceUpdate sampleMetadata rfl rfl rfl
    (by decide) rfl

/-! ## Claim C6: rollback and its failure diagnostic -/

/-- Evaluation of `rollbackUpdate` at the C6 failing input: the record
holds the pending pair (1.0.0, tx-prev) but no backup artifact exists on
disk.  The failure message does name the missing backup path
(`~/.pal/backups/pal-1.0.0.tgz`), but the recovery command references
`~/.pal/backups/1.0.0.tgz` — a path at which the backup step never
creates a file, since `backupCurrentVersion` writes
`pal-<version>.tgz`. -/
theorem rollbackUpdate_missing_backup_diagnostic :
    rollbackUpdate (some sampleMetadata) [] (fun _ => true) =
      (.ok false,
       { messages := ["Rollback failed: Error: Backup not found: ~/.pal/backups/pal-1.0.0.tgz",
                      "Manual fix: npm install -g ~/.pal/backups/1.0.0.tgz"] }) ∧
    backupArtifactPath "1.0.0" = "~/.pal/backups/pal-1.0.0.tgz" ∧
    ("~/.pal/backups/1.0.0.tgz" : String) ≠ backupArtifactPath "1.0.0" := by
  refine ⟨rfl, rfl, by decide⟩

/-! ## Claim C3: saving the install record -/

/-- Any take-truncation of the new content is an observable write stage. -/
theorem mem_writeStages_of_le (c : String) (n : Nat) (h : n ≤ c.data.length) :
    String.mk (c.data.take n) ∈ writeStages c := by
  unfold writeStages
  exact List.mem_map.mpr ⟨n, List.mem_range.mpr (Nat.lt_succ_of_le h), rfl⟩

/-- The completed content is among the write stages. -/
theorem self_mem_writeStages (c : String) : c ∈ writeStages c := by
  have h := mem_writeStages_of_le c c.data.length le_rfl
  rwa [List.take_length] at h

/-- A serialized record always has at least four characters (the
surrounding braces and two newlines). -/
theorem serializeChars_length (m : InstallMetadata) : 4 ≤ (serializeChars m).length := by
  unfold serializeChars
  simp [List.length_append]

/-- The one-character torn stage of a record write. -/
theorem torn_one_ne_serialize (m : InstallMetadata) :
    String.mk ['\x7b'] ≠ serializeInstallMetadata m := by
  intro he
  have hl : (1 : Nat) = (serializeChars m).length :=
    congrArg (fun s => s.data.length) he
  have h4 := serializeChars_length m
  omega

/-- The two-character torn stage of a record write. -/
theorem torn_two_ne_serialize (m : InstallMetadata) :
    String.mk ['\x7b', '\n'] ≠ serializeInstallMetadata m := by
  intro he
  have hl : (2 : Nat) = (serializeChars m).length :=
    congrArg (fun s => s.data.length) he
  have h4 := serializeChars_length m
  omega

/-- The record state on disk before the writes of the concrete C3
scenario: the record as it stood after installing 1.0.0. -/
def priorMetadata : InstallMetadata :=
  { sampleMetadata with
    version := "1.0.0"
    transactionId := "tx-prev"
    previousVersion := none
    previousTxId := none }

set_option maxRecDepth 8192 in
/-- Counterexample to C3 as stated: `saveInstallMetadata` is one direct
`writeFileSync` to `install.json` with no temporary file and no rename,
so while the record for version 1.1.0 is being written over the record
for 1.0.0, a reader can observe a state (for instance the single
character "\x7b") that is neither the complete old record nor the
complete new one. -/
theorem saveInstallMetadata_not_atomic_counterexample :
    ¬ (∀ s ∈ observableContents (saveInstallMetadataWrite sampleMetadata)
          (serializeInstallMetadata priorMetadata),
        s = serializeInstallMetadata priorMetadata ∨
        s = serializeInstallMetadata sampleMetadata) := by
  decide

/-- C3 amended: `save` writes the whole serialized record in a single
direct whole-file write to the record path — the complete new record is
the final observable content — but the write is not a write-then-replace:
for every record and every prior file content some observable mid-write
state differs from both the old and the new record, so a concurrent or
post-crash reader can see a torn record. -/
theorem saveInstallMetadata_write_behavior (m : InstallMetadata) (old : String) :
    saveInstallMetadataWrite m = .direct installJsonPath (serializeInstallMetadata m) ∧
    serializeInstallMetadata m ∈ observableContents (saveInstallMetadataWrite m) old ∧
    ∃ s ∈ observableContents (saveInstallMetadataWrite m) old,
      s ≠ old ∧ s ≠ serializeInstallMetadata m := by
  refine ⟨rfl, List.mem_cons_of_mem _ (self_mem_writeStages _), ?_⟩
  have hlen := serializeChars_length m
  have hmem1 : String.mk ['\x7b'] ∈ writeStages (serializeInstallMetadata m) := by
    have h1 : (1 : Nat) ≤ (serializeInstallMetadata m).data.length := by
      show (1 : Nat) ≤ (serializeChars m).length
      omega
    have h := mem_writeStages_of_le (serializeInstallMetadata m) 1 h1
    rwa [show (serializeInstallMetadata m).data.take 1 = ['\x7b'] from rfl] at h
  have hmem2 : String.mk ['\x7b', '\n'] ∈ writeStages (serializeInstallMetadata m) := by
    have h2 : (2 : Nat) ≤ (serializeInstallMetadata m).data.length := by
      show (2 : Nat) ≤ (serializeChars m).length
      omega
    have h := mem_writeStages_of_le (serializeInstallMetadata m) 2 h2
    rwa [show (serializeInstallMetadata m).data.take 2 = ['\x7b', '\n'] from rfl] at h
  by_cases hold : old = String.mk ['\x7b']
  · refine ⟨String.mk ['\x7b', '\n'], List.mem_cons_of_mem _ hmem2, ?_, torn_two_ne_serialize m⟩
    rw [hold]
    decide
  · exact ⟨String.mk ['\x7b'], List.mem_cons_of_mem _ hmem1,
      fun he => hold he.symm, torn_one_ne_serialize m⟩

/-- Witness for the amended C3 at a concrete record pair: the complete
new record is observable as the final content of the write. -/
theorem saveInstallMetadata_write_behavior_witness :
    serializeInstallMetadata sampleMetadata ∈
      observableContents (saveInstallMetadataWrite sampleMetadata)
        (serializeInstallMetadata priorMetadata) :=
  (saveInstallMetadata_write_behavior sampleMetadata
    (serializeInstallMetadata priorMetadata)).2.1

/-- Witness for the amended C4 at a concrete output containing the
candidate version. -/
theorem verifyInstallation_iff_substring_witness :
    verifyInstallation "1.2.3" (some "pal version 1.2.3") = true :=
  (verifyInstallation_iff_substring "1.2.3" (some "pal version 1.2.3")).mpr
    ⟨"pal version 1.2.3", rfl, "pal version ".data, [], by decide⟩

end Pal
